import Mathlib

/-!
Verification development for the Redis fallback queue engine of the
omniqueue repository (`src/omniqueue/src/backends/redis/fallback.rs` and
`src/omniqueue/src/queue/consumer.rs`).

The engine stores frames (byte strings) in Redis lists.  We embed byte
strings as `List Nat`, the Redis key space as a fixed record of four lists
(the engine owns exactly the four keys `main`, `processing`, `delayed`,
`dlq`; each modelled function acts on the list its key parameter denotes),
and each operation as a pure function that returns the new store together
with the trace of Redis commands it issued and its result value.

Lists are oriented with index 0 as the Redis head: LPUSH prepends,
RPUSH appends, LRANGE takes a prefix, BRPOPLPUSH pops the last element of
the source and prepends it to the destination, LREM with positive count
removes matches scanning from the head.

The codec (`internal_from_list` / `internal_to_list_payload`, from
`backends/redis/mod.rs`) is not among the provided source files; it is
modelled from the spec, as marked on each of those definitions.
-/

set_option autoImplicit false

/-- A byte string (Rust `Vec<u8>`), embedded as a list of byte values. -/
abbrev Bytes := List Nat

/-- The frame separator byte, a vertical bar (spec section 3). -/
def frameSep : Nat := 124

/-- Errors of the engine.  `Generic` and `CannotAckOrNackTwice` are the
variants `fallback.rs` constructs (`QueueError::Generic`,
`QueueError::CannotAckOrNackTwice`); `Unsupported` is used by
`set_ack_deadline`; `MalformedFrame` stands for the error the codec
returns on an unparsable frame (spec section 7 taxonomy; the codec module
itself is not among the provided sources). -/
inductive QueueError where
  | Generic (msg : String)
  | CannotAckOrNackTwice
  | Unsupported (msg : String)
  | MalformedFrame
deriving DecidableEq

/-- The message of the error returned by `receive` on an empty reply,
from `fallback.rs`: `QueueError::Generic("No data".into())`. -/
def noDataMsg : String := "No data"

/-- The spec's `NoData` error (section 7): a receive timeout with no
message.  `fallback.rs` represents it as `QueueError::Generic("No data")`. -/
def QueueError.noData : QueueError := QueueError.Generic noDataMsg

/-- Commands issued against Redis, recorded as a trace. -/
inductive RedisCmd where
  | lpush (key : String) (val : Bytes)
  | rpush (key : String) (val : Bytes)
  | lrem (key : String) (count : Nat) (val : Bytes)
  | lrange (key : String) (start stop : Nat)
  | brpoplpush (src dst : String) (timeout : Nat)
deriving DecidableEq

/-- The four Redis lists owned by the engine (spec section 3).  Index 0 is
the Redis head of each list. -/
structure RedisState where
  main : List Bytes
  processing : List Bytes
  delayed : List Bytes
  dlq : List Bytes
deriving DecidableEq

/-- LREM with count 1: remove the first occurrence of `v`, scanning from
the head. -/
def lremOne (l : List Bytes) (v : Bytes) : List Bytes :=
  match l with
  | [] => []
  | x :: rest => if x = v then rest else x :: lremOne rest v

/-- Lexicographic `<=` on byte strings, as Rust's `Ord` for `Vec<u8>`
compares (used by the reaper for `keys[0] <= validity_limit`). -/
def leLex : Bytes → Bytes → Bool
  | [], _ => true
  | _ :: _, [] => false
  | a :: as, b :: bs => if a < b then true else if a = b then leLex as bs else false

/-- Whether a byte is an ASCII decimal digit. -/
def isDigitByte (c : Nat) : Bool := 48 ≤ c && c ≤ 57

/-- Parse a non-empty all-digit byte string as a decimal natural number. -/
def parseDecimal (s : Bytes) : Option Nat :=
  if s ≠ [] && s.all isDigitByte then
    some (s.foldl (fun acc c => acc * 10 + (c - 48)) 0)
  else
    none

/-- Decimal digits of `n`, most significant first, with an explicit fuel
argument (always called with fuel `n + 1`, which suffices). -/
def natToDecimalCore : Nat → Nat → Bytes → Bytes
  | 0, _, acc => acc
  | fuel + 1, n, acc =>
    if n < 10 then (n % 10 + 48) :: acc
    else natToDecimalCore fuel (n / 10) ((n % 10 + 48) :: acc)

/-- ASCII decimal representation of a natural number (Rust `itoa`). -/
def natToDecimal (n : Nat) : Bytes := natToDecimalCore (n + 1) n []

/-- Split a byte string at the first occurrence of `sep`, returning the
part before it and the part after it. -/
def splitFirst (sep : Nat) : Bytes → Option (Bytes × Bytes)
  | [] => none
  | b :: rest =>
    if b = sep then some ([], rest)
    else
      match splitFirst sep rest with
      | none => none
      | some (x, y) => some (b :: x, y)

/-- Modelled from the spec: the parse step of the codec's Decode
(spec section 4.1), from `backends/redis/mod.rs` which is not among the
provided sources.  Split on the first two separators; with two or more
separators the middle field must parse as a non-negative decimal integer
(the stored attempts counter); with exactly one separator the frame is the
legacy form `id|bytes` and the stored attempts count is 0; anything else
is a `MalformedFrame` error.  Returns `(payload bytes, stored attempts)`. -/
def parse_list_payload (p : Bytes) : Except QueueError (Bytes × Nat) :=
  match splitFirst frameSep p with
  | none => .error QueueError.MalformedFrame
  | some (_id, rest) =>
    match splitFirst frameSep rest with
    | none => .ok (rest, 0)
    | some (attemptsField, payload) =>
      match parseDecimal attemptsField with
      | some a => .ok (payload, a)
      | none => .error QueueError.MalformedFrame

/-- Modelled from the spec: `internal_from_list` of
`backends/redis/mod.rs`, which is not among the provided sources.  It
parses a stored frame and yields the payload together with the receive
count of the current delivery, i.e. the stored attempts counter plus one.
The increment on decode is forced by the sources that are present: the
acker comment in `fallback.rs` ("the `num_receives` changes after
receiving ... `num_receives` is part of the payload") and the dead-letter
tests, which demand that a frame stored with counter `a` is terminal
exactly when `a + 1 >= max_receives`, while no caller in `fallback.rs`
adds one itself (spec sections 4.4 and 4.5 state the `attempts + 1`
semantics). -/
def internal_from_list (p : Bytes) : Except QueueError (Bytes × Nat) :=
  match parse_list_payload p with
  | .error e => .error e
  | .ok (payload, a) => .ok (payload, a + 1)

/-- Modelled from the spec: `internal_to_list_payload` of
`backends/redis/mod.rs`, which is not among the provided sources.  Encode
(spec section 4.1): produce `id | itoa(count) | bytes`.  The freshly
generated lexicographic millisecond id is passed explicitly (`id`), since
id generation reads a clock and randomness. -/
def internal_to_list_payload (id : Bytes) (internal : Bytes × Nat) : Bytes :=
  id ++ frameSep :: natToDecimal internal.2 ++ frameSep :: internal.1

/-- Configuration of the fallback consumer used by `fallback.rs`: the
`main` key, the `processing` key and the `max_receives` bound (fields of
`RedisConsumer` that `fallback.rs` reads; the connection pool is elided). -/
structure RedisConsumer where
  queue_key : String
  processing_queue_key : String
  max_receives : Nat
deriving DecidableEq

/-- The acker state of `fallback.rs` (`RedisFallbackAcker`), minus the
connection pool. -/
structure RedisFallbackAcker where
  processing_queue_key : String
  old_payload : Bytes
  already_acked_or_nacked : Bool
  max_receives : Nat
  num_receives : Nat
deriving DecidableEq

/-- A delivery handed to the consumer: the decoded payload plus its acker. -/
structure Delivery where
  payload : Bytes
  acker : RedisFallbackAcker
deriving DecidableEq

deriving instance DecidableEq for Except

/-- Result of an engine operation: the new store, the trace of issued
Redis commands, and the operation's return value. -/
structure EngineResult (α : Type) where
  st : RedisState
  cmds : List RedisCmd
  result : Except QueueError α
deriving DecidableEq

/-- Result of an ack or nack: the updated acker alongside the usual parts. -/
structure AckResult where
  acker : RedisFallbackAcker
  st : RedisState
  cmds : List RedisCmd
  result : Except QueueError Unit
deriving DecidableEq

/-- BRPOPLPUSH from `main` to `processing`: pop the tail of `main`, push
it onto the head of `processing`; an empty `main` stands for the blocking
call expiring with a null reply. -/
def brpoplpushMainToProcessing (st : RedisState) : Option Bytes × RedisState :=
  match st.main.getLast? with
  | none => (none, st)
  | some x =>
    (some x, { st with main := st.main.dropLast, processing := x :: st.processing })

/-- `internal_to_delivery` of `fallback.rs`: build the delivery, capturing
the original frame bytes verbatim in the acker and starting unfinalized. -/
def internal_to_delivery (internal : Bytes × Nat) (c : RedisConsumer)
    (old_payload : Bytes) : Delivery :=
  { payload := internal.1,
    acker :=
      { processing_queue_key := c.processing_queue_key,
        old_payload := old_payload,
        already_acked_or_nacked := false,
        max_receives := c.max_receives,
        num_receives := internal.2 } }

/-- `receive_with_timeout` of `fallback.rs`: one BRPOPLPUSH with the given
timeout; on a reply, decode the frame and build the delivery; on a null
reply, return none. -/
def receive_with_timeout (c : RedisConsumer) (timeout : Nat) (st : RedisState) :
    EngineResult (Option Delivery) :=
  let cmds := [RedisCmd.brpoplpush c.queue_key c.processing_queue_key timeout]
  match brpoplpushMainToProcessing st with
  | (some old_payload, st') =>
    match internal_from_list old_payload with
    | .error e => ⟨st', cmds, .error e⟩
    | .ok internal => ⟨st', cmds, .ok (some (internal_to_delivery internal c old_payload))⟩
  | (none, st') => ⟨st', cmds, .ok none⟩

/-- `receive` of `fallback.rs`: `receive_with_timeout` with
`Duration::ZERO`, turning an empty reply into the `No data` error. -/
def fallback_receive (c : RedisConsumer) (st : RedisState) : EngineResult Delivery :=
  match receive_with_timeout c 0 st with
  | ⟨st', cmds, .ok (some d)⟩ => ⟨st', cmds, .ok d⟩
  | ⟨st', cmds, .ok none⟩ => ⟨st', cmds, .error QueueError.noData⟩
  | ⟨st', cmds, .error e⟩ => ⟨st', cmds, .error e⟩

/-- `receive_all` of `fallback.rs`: a single `receive_with_timeout` with
the deadline as timeout; `max_messages` is ignored (named `_max_messages`
in the source), and the zero-or-one element reply becomes the result. -/
def fallback_receive_all (c : RedisConsumer) (deadline : Nat) (_maxMessages : Nat)
    (st : RedisState) : EngineResult (List Delivery) :=
  match receive_with_timeout c deadline st with
  | ⟨st', cmds, .ok od⟩ => ⟨st', cmds, .ok od.toList⟩
  | ⟨st', cmds, .error e⟩ => ⟨st', cmds, .error e⟩

/-- Length of a successful result list (0 for errors). -/
def okLength (r : Except QueueError (List Delivery)) : Nat :=
  match r with
  | .ok ds => ds.length
  | .error _ => 0

/-- `RedisFallbackAcker::ack` of `fallback.rs`: fail if already finalized,
else LREM the original frame bytes (count 1) from `processing` and mark
finalized. -/
def RedisFallbackAcker.ack (a : RedisFallbackAcker) (st : RedisState) : AckResult :=
  if a.already_acked_or_nacked then
    ⟨a, st, [], .error QueueError.CannotAckOrNackTwice⟩
  else
    ⟨{ a with already_acked_or_nacked := true },
     { st with processing := lremOne st.processing a.old_payload },
     [RedisCmd.lrem a.processing_queue_key 1 a.old_payload],
     .ok ()⟩

/-- `RedisFallbackAcker::nack` of `fallback.rs`: at the maximum receive
count delegate to `ack`; otherwise fail if already finalized, else just
mark finalized, issuing no Redis command. -/
def RedisFallbackAcker.nack (a : RedisFallbackAcker) (st : RedisState) : AckResult :=
  if a.num_receives ≥ a.max_receives then
    a.ack st
  else if a.already_acked_or_nacked then
    ⟨a, st, [], .error QueueError.CannotAckOrNackTwice⟩
  else
    ⟨{ a with already_acked_or_nacked := true }, st, [], .ok ()⟩

/-- Result of one reaper iteration (`reenqueue_timed_out_messages`): the
new store, the unconsumed fresh-id supply, the command trace, the error
aborting the iteration if any, and whether the iteration slept because
nothing was overdue. -/
structure ReapResult where
  st : RedisState
  ids : List Bytes
  cmds : List RedisCmd
  err : Option QueueError
  slept : Bool
deriving DecidableEq

/-- The body of the reaper's batch loop in `reenqueue_timed_out_messages`
of `fallback.rs`, applied to one batch entry.  A decode error aborts the
whole iteration (the `?` operator), recorded in `err`; once `err` is set
the remaining entries are untouched.  An overdue entry at or past the
maximum receive count is only LREMed ("not reenqueuing"); an overdue entry
below it is RPUSHed back to `main` re-encoded with a fresh id and then
LREMed; an entry newer than the validity limit is skipped. -/
def reapStep (queueKey processingKey : String) (maxReceives : Nat) (limit : Bytes)
    (acc : ReapResult) (key : Bytes) : ReapResult :=
  if acc.err.isSome then acc
  else if leLex key limit then
    match internal_from_list key with
    | .error e => { acc with err := some e }
    | .ok internal =>
      let acc' :=
        if internal.2 ≥ maxReceives then acc
        else
          let id := acc.ids.headD []
          { acc with
            st := { acc.st with
                    main := acc.st.main ++ [internal_to_list_payload id internal] },
            ids := acc.ids.tail,
            cmds := acc.cmds ++ [RedisCmd.rpush queueKey (internal_to_list_payload id internal)] }
      { acc' with
        st := { acc'.st with processing := lremOne acc'.st.processing key },
        cmds := acc'.cmds ++ [RedisCmd.lrem processingKey 1 key] }
  else acc

/-- `reenqueue_timed_out_messages` of `fallback.rs`: peek the first two
entries of `processing`; if the head is lexically at or before the
validity limit, fetch a batch of the first `BATCH_SIZE + 1 = 51` entries
and run the loop body on each; otherwise sleep 500 ms.  The validity limit
(a ksuid for `now - ack_deadline`) and the fresh ids generated on
re-encode are passed in, since they read the clock and randomness. -/
def reenqueue_timed_out_messages (queueKey processingKey : String) (maxReceives : Nat)
    (limit : Bytes) (ids : List Bytes) (st : RedisState) : ReapResult :=
  let keys := st.processing.take 2
  match keys with
  | [] => ⟨st, ids, [RedisCmd.lrange processingKey 0 1], none, true⟩
  | k0 :: _ =>
    if leLex k0 limit then
      let batch := st.processing.take 51
      batch.foldl (reapStep queueKey processingKey maxReceives limit)
        ⟨st, ids, [RedisCmd.lrange processingKey 0 1, RedisCmd.lrange processingKey 0 50],
         none, false⟩
    else
      ⟨st, ids, [RedisCmd.lrange processingKey 0 1], none, true⟩

/-- One turn of `background_task_processing` of `fallback.rs`: run the
reaper iteration; on an error, log it and sleep 500 ms; either way the
loop continues with the resulting store (the loop never exits).  The
returned boolean records whether this turn slept. -/
def background_task_iteration (queueKey processingKey : String) (maxReceives : Nat)
    (limit : Bytes) (ids : List Bytes) (st : RedisState) :
    RedisState × List Bytes × Bool :=
  let r := reenqueue_timed_out_messages queueKey processingKey maxReceives limit ids st
  match r.err with
  | some _ => (r.st, r.ids, true)
  | none => (r.st, r.ids, r.slept)

/-- The type-erased consumer interface stored inside `DynConsumer`
(`ErasedQueueConsumer` in `queue/consumer.rs`): a `receive_all` taking
`max_messages` and a deadline, and the `max_messages` capability, an
optional positive integer (`Option<NonZeroUsize>`). -/
structure ErasedQueueConsumer where
  receive_all : Nat → Nat → List Delivery
  max_messages : Option PNat

/-- `DynConsumer::receive_all` of `queue/consumer.rs`: clamp
`max_messages` to `min(max_messages, backend_max)` when the backend
reports a maximum, pass it through unchanged when it reports none, then
invoke the wrapped backend's `receive_all`. -/
def DynConsumer.receive_all (c : ErasedQueueConsumer) (maxMessages deadline : Nat) :
    List Delivery :=
  let clamped :=
    match c.max_messages with
    | some backendMax => min maxMessages backendMax.val
    | none => maxMessages
  c.receive_all clamped deadline

/-- The default of `QueueConsumer::max_messages` in `queue/consumer.rs`:
no backend maximum. -/
def QueueConsumer.max_messages_default : Option PNat := none

/-- Modelled from the spec: the fallback engine's consumer does not
override `max_messages` (spec section 6: it "returns none in the fallback
engine"); the overriding impl would live in `backends/redis/mod.rs`, which
is not among the provided sources. -/
def RedisConsumer.max_messages (_c : RedisConsumer) : Option PNat :=
  QueueConsumer.max_messages_default

/-- Whether a decode result is a success. -/
def decodeOk (r : Except QueueError (Bytes × Nat)) : Bool :=
  match r with
  | .ok _ => true
  | .error _ => false

/-- Sample main-queue key for concrete instances. -/
def qkey0 : String := "q"

/-- Sample processing-queue key for concrete instances. -/
def pkey0 : String := "p"

/-- Sample consumer with `max_receives = 5`. -/
def consumer0 : RedisConsumer := ⟨qkey0, pkey0, 5⟩

/-- The empty store. -/
def emptyState : RedisState := ⟨[], [], [], []⟩

/-- A frame `0|4|hi`: id `0`, stored attempts 4, payload `hi`. -/
def c1Frame : Bytes := [48, 124, 52, 124, 104, 105]

/-- A store whose processing list holds just `c1Frame`. -/
def c1State : RedisState := ⟨[], [c1Frame], [], []⟩

/-- A frame `0|4|h`: id `0`, stored attempts 4, payload `h`. -/
def sampleFrame4 : Bytes := [48, 124, 52, 124, 104]

/-- A store whose processing list holds just `sampleFrame4`. -/
def state1 : RedisState := ⟨[], [sampleFrame4], [], []⟩

/-- An unfinalized acker for `sampleFrame4` with receive count 1 of 5. -/
def acker0 : RedisFallbackAcker := ⟨pkey0, sampleFrame4, false, 5, 1⟩

/-- A store whose main list holds just `sampleFrame4`. -/
def state2 : RedisState := ⟨[sampleFrame4], [], [], []⟩

/-- An erased consumer reporting a backend maximum of 3. -/
def erased1 : ErasedQueueConsumer := ⟨fun _ _ => [], some ⟨3, by decide⟩⟩

/-- An erased consumer reporting no backend maximum. -/
def erased2 : ErasedQueueConsumer := ⟨fun _ _ => [], none⟩

theorem splitFirst_cons_ne {s x : Nat} {xs : Bytes} (h : x ≠ s) :
    splitFirst s (x :: xs) =
      match splitFirst s xs with
      | none => none
      | some (u, v) => some (x :: u, v) := by
  simp [splitFirst, h]

theorem splitFirst_none_inv {s x : Nat} {xs : Bytes}
    (h : splitFirst s (x :: xs) = none) : x ≠ s ∧ splitFirst s xs = none := by
  by_cases hx : x = s
  · subst hx
    simp [splitFirst] at h
  · rw [splitFirst_cons_ne hx] at h
    refine ⟨hx, ?_⟩
    cases hs : splitFirst s xs with
    | none => rfl
    | some uv => rw [hs] at h; cases uv; simp at h

theorem splitFirst_append_of_none {s : Nat} {u : Bytes} (r : Bytes)
    (h : splitFirst s u = none) : splitFirst s (u ++ s :: r) = some (u, r) := by
  induction u with
  | nil => simp [splitFirst]
  | cons x xs ih =>
    obtain ⟨hx, hxs⟩ := splitFirst_none_inv h
    rw [List.cons_append, splitFirst_cons_ne hx, ih hxs]

theorem splitFirst_none_of_no_sep {s : Nat} {l : Bytes}
    (h : ∀ x ∈ l, x ≠ s) : splitFirst s l = none := by
  induction l with
  | nil => rfl
  | cons x xs ih =>
    rw [splitFirst_cons_ne (h x (List.mem_cons_self x xs)),
      ih fun y hy => h y (List.mem_cons_of_mem x hy)]

theorem parseDecimal_sep_none {ds : Bytes} {a : Nat}
    (h : parseDecimal ds = some a) : splitFirst frameSep ds = none := by
  refine splitFirst_none_of_no_sep fun x hx => ?_
  unfold parseDecimal at h
  split at h
  · rename_i hcond
    have hall : ds.all isDigitByte = true := (Bool.and_eq_true_iff.mp hcond).2
    have hdig : isDigitByte x = true := List.all_eq_true.mp hall x hx
    simp only [isDigitByte, Bool.and_eq_true_iff, decide_eq_true_eq] at hdig
    simp only [frameSep]
    omega
  · simp at h

theorem parse_frame_legacy {id b : Bytes}
    (hid : splitFirst frameSep id = none) (hb : splitFirst frameSep b = none) :
    parse_list_payload (id ++ frameSep :: b) = .ok (b, 0) := by
  simp only [parse_list_payload, splitFirst_append_of_none b hid, hb]

theorem parse_frame_current {id ds b : Bytes} {a : Nat}
    (hid : splitFirst frameSep id = none) (hds : parseDecimal ds = some a) :
    parse_list_payload (id ++ frameSep :: (ds ++ frameSep :: b)) = .ok (b, a) := by
  simp only [parse_list_payload, splitFirst_append_of_none _ hid,
    splitFirst_append_of_none b (parseDecimal_sep_none hds), hds]

theorem decode_frame_current {id ds b : Bytes} {a : Nat}
    (hid : splitFirst frameSep id = none) (hds : parseDecimal ds = some a) :
    internal_from_list (id ++ frameSep :: (ds ++ frameSep :: b)) = .ok (b, a + 1) := by
  unfold internal_from_list
  rw [parse_frame_current hid hds]

/-- C3: for every `max_messages` value and every deadline, the fallback
engine's `receive_all` issues exactly one BRPOPLPUSH from the main key to
the processing key with timeout equal to the deadline, and its successful
result is a sequence of length at most one, however large `max_messages`
is. -/
theorem receive_all_single_poll (c : RedisConsumer) (maxMessages deadline : Nat)
    (st : RedisState) :
    (fallback_receive_all c deadline maxMessages st).cmds =
      [RedisCmd.brpoplpush c.queue_key c.processing_queue_key deadline] ∧
    okLength (fallback_receive_all c deadline maxMessages st).result ≤ 1 := by
  unfold fallback_receive_all receive_with_timeout brpoplpushMainToProcessing
  cases h : st.main.getLast? with
  | none => simp [okLength]
  | some x =>
    cases hd : internal_from_list x with
    | error e => simp [okLength, hd]
    | ok it => simp [okLength, hd]

/-- C4: `receive` issues a single BRPOPLPUSH from main to processing with
the internal deadline `Duration::ZERO`, and when no element is obtained it
fails with the `NoData` error (`QueueError::Generic("No data")`), leaving
the store unchanged. -/
theorem receive_empty_fails_no_data (c : RedisConsumer) (st : RedisState)
    (h : st.main = []) :
    fallback_receive c st =
      ⟨st, [RedisCmd.brpoplpush c.queue_key c.processing_queue_key 0],
       .error QueueError.noData⟩ := by
  unfold fallback_receive receive_with_timeout brpoplpushMainToProcessing
  rw [h]
  rfl

/-- Witness for `receive_empty_fails_no_data` at the empty store. -/
theorem receive_empty_fails_no_data_witness :
    fallback_receive consumer0 emptyState =
      ⟨emptyState, [RedisCmd.brpoplpush consumer0.queue_key consumer0.processing_queue_key 0],
       .error QueueError.noData⟩ :=
  receive_empty_fails_no_data consumer0 emptyState rfl

theorem ack_ok_finalizes {a : RedisFallbackAcker} {st : RedisState}
    (h : (a.ack st).result = .ok ()) :
    (a.ack st).acker.already_acked_or_nacked = true := by
  by_cases hf : a.already_acked_or_nacked = true
  · unfold RedisFallbackAcker.ack at h
    rw [if_pos hf] at h
    simp at h
  · unfold RedisFallbackAcker.ack
    rw [if_neg hf]

theorem nack_eq_ack_of_ge {a : RedisFallbackAcker} (st : RedisState)
    (hm : a.num_receives ≥ a.max_receives) : a.nack st = a.ack st := by
  unfold RedisFallbackAcker.nack
  rw [if_pos hm]

theorem nack_ok_finalizes {a : RedisFallbackAcker} {st : RedisState}
    (h : (a.nack st).result = .ok ()) :
    (a.nack st).acker.already_acked_or_nacked = true := by
  by_cases hm : a.num_receives ≥ a.max_receives
  · rw [nack_eq_ack_of_ge st hm] at h ⊢
    exact ack_ok_finalizes h
  · by_cases hf : a.already_acked_or_nacked = true
    · have e : a.nack st = ⟨a, st, [], .error QueueError.CannotAckOrNackTwice⟩ := by
        unfold RedisFallbackAcker.nack
        rw [if_neg hm, if_pos hf]
      rw [e] at h
      simp at h
    · have e : a.nack st =
          ⟨{ a with already_acked_or_nacked := true }, st, [], .ok ()⟩ := by
        unfold RedisFallbackAcker.nack
        rw [if_neg hm, if_neg hf]
      rw [e]

theorem ack_after_finalized {a : RedisFallbackAcker} (st : RedisState)
    (h : a.already_acked_or_nacked = true) :
    a.ack st = ⟨a, st, [], .error QueueError.CannotAckOrNackTwice⟩ := by
  unfold RedisFallbackAcker.ack
  rw [if_pos h]

theorem nack_after_finalized {a : RedisFallbackAcker} (st : RedisState)
    (h : a.already_acked_or_nacked = true) :
    a.nack st = ⟨a, st, [], .error QueueError.CannotAckOrNackTwice⟩ := by
  by_cases hm : a.num_receives ≥ a.max_receives
  · rw [nack_eq_ack_of_ge st hm]
    exact ack_after_finalized st h
  · unfold RedisFallbackAcker.nack
    rw [if_neg hm, if_pos h]

/-- C5: finalizing is one-shot.  Once an `ack` or a `nack` on a delivery's
acker has returned success, every later `ack` or `nack` on the resulting
acker fails with `CannotAckOrNackTwice` (the spec's `DoubleFinalize`),
issues no Redis command, and leaves the store and the acker unchanged —
so all subsequent invocations keep failing the same way. -/
theorem finalize_is_one_shot (a : RedisFallbackAcker) (st : RedisState)
    (r : AckResult) (hr : r = a.ack st ∨ r = a.nack st)
    (hok : r.result = .ok ()) :
    r.acker.ack r.st = ⟨r.acker, r.st, [], .error QueueError.CannotAckOrNackTwice⟩ ∧
    r.acker.nack r.st = ⟨r.acker, r.st, [], .error QueueError.CannotAckOrNackTwice⟩ := by
  have hflag : r.acker.already_acked_or_nacked = true := by
    cases hr with
    | inl h => rw [h] at hok ⊢; exact ack_ok_finalizes hok
    | inr h => rw [h] at hok ⊢; exact nack_ok_finalizes hok
  exact ⟨ack_after_finalized r.st hflag, nack_after_finalized r.st hflag⟩

/-- Witness for `finalize_is_one_shot`: a successful `nack` on a concrete
unfinalized acker below its maximum, followed by failing `ack` and `nack`. -/
theorem finalize_is_one_shot_witness :
    ((acker0.nack state1).acker.ack (acker0.nack state1).st =
      ⟨(acker0.nack state1).acker, (acker0.nack state1).st, [],
       .error QueueError.CannotAckOrNackTwice⟩) ∧
    ((acker0.nack state1).acker.nack (acker0.nack state1).st =
      ⟨(acker0.nack state1).acker, (acker0.nack state1).st, [],
       .error QueueError.CannotAckOrNackTwice⟩) :=
  finalize_is_one_shot acker0 state1 (acker0.nack state1) (Or.inr rfl) (by decide)

/-- C9: on an unfinalized delivery whose receive count is still below
`max_receives`, `nack` issues no Redis command at all: the store is
returned unchanged and the only state change is the acker's finalized
flag. -/
theorem nack_below_max_issues_no_command (a : RedisFallbackAcker) (st : RedisState)
    (hflag : a.already_acked_or_nacked = false)
    (hnum : a.num_receives < a.max_receives) :
    a.nack st = ⟨{ a with already_acked_or_nacked := true }, st, [], .ok ()⟩ := by
  unfold RedisFallbackAcker.nack
  rw [if_neg (by omega), hflag]
  rfl

/-- Witness for `nack_below_max_issues_no_command` at a concrete acker
with receive count 1 of 5. -/
theorem nack_below_max_issues_no_command_witness :
    acker0.nack state1 =
      ⟨{ acker0 with already_acked_or_nacked := true }, state1, [], .ok ()⟩ :=
  nack_below_max_issues_no_command acker0 state1 rfl (by decide)

/-- C6: on a delivery built from a stored frame whose attempts counter `a`
satisfies `a + 1 >= max_receives` (so the decoded receive count has
reached the maximum), `nack` behaves exactly as `ack`: it LREMs the
original frame bytes with count 1 from the processing list and marks the
delivery finalized. -/
theorem nack_at_max_behaves_as_ack (c : RedisConsumer) (F b : Bytes) (a : Nat)
    (st : RedisState) (hparse : parse_list_payload F = .ok (b, a))
    (hmax : a + 1 ≥ c.max_receives) :
    internal_from_list F = .ok (b, a + 1) ∧
    (internal_to_delivery (b, a + 1) c F).acker.nack st =
      (internal_to_delivery (b, a + 1) c F).acker.ack st ∧
    (internal_to_delivery (b, a + 1) c F).acker.ack st =
      ⟨{ (internal_to_delivery (b, a + 1) c F).acker with
           already_acked_or_nacked := true },
       { st with processing := lremOne st.processing F },
       [RedisCmd.lrem c.processing_queue_key 1 F], .ok ()⟩ := by
  refine ⟨?_, ?_, ?_⟩
  · unfold internal_from_list
    rw [hparse]
  · exact nack_eq_ack_of_ge st hmax
  · unfold RedisFallbackAcker.ack
    rw [if_neg (by simp [internal_to_delivery])]
    simp [internal_to_delivery]

/-- Witness for `nack_at_max_behaves_as_ack`: the frame `0|4|h` with
`max_receives = 5`, so the fifth receive is terminal. -/
theorem nack_at_max_behaves_as_ack_witness :
    internal_from_list sampleFrame4 = .ok ([104], 4 + 1) ∧
    (internal_to_delivery ([104], 4 + 1) consumer0 sampleFrame4).acker.nack state1 =
      (internal_to_delivery ([104], 4 + 1) consumer0 sampleFrame4).acker.ack state1 ∧
    (internal_to_delivery ([104], 4 + 1) consumer0 sampleFrame4).acker.ack state1 =
      ⟨{ (internal_to_delivery ([104], 4 + 1) consumer0 sampleFrame4).acker with
           already_acked_or_nacked := true },
       { state1 with processing := lremOne state1.processing sampleFrame4 },
       [RedisCmd.lrem consumer0.processing_queue_key 1 sampleFrame4], .ok ()⟩ :=
  nack_at_max_behaves_as_ack consumer0 sampleFrame4 [104] 4 state1 (by decide) (by decide)

/-- C10: `DynConsumer::receive_all` invokes the wrapped backend's
`receive_all` with `min(max_messages, backend_max)` when the backend's
`max_messages` capability reports some positive integer, and with
`max_messages` unchanged when it reports none — the trait default, which
the fallback engine's consumer uses. -/
theorem dyn_receive_all_clamps (c : ErasedQueueConsumer) (maxMessages deadline : Nat) :
    (∀ backendMax : PNat, c.max_messages = some backendMax →
      DynConsumer.receive_all c maxMessages deadline =
        c.receive_all (min maxMessages backendMax.val) deadline) ∧
    (c.max_messages = none →
      DynConsumer.receive_all c maxMessages deadline =
        c.receive_all maxMessages deadline) ∧
    (∀ rc : RedisConsumer, rc.max_messages = QueueConsumer.max_messages_default ∧
      QueueConsumer.max_messages_default = (none : Option PNat)) := by
  refine ⟨fun backendMax hb => ?_, fun hn => ?_, fun rc => ⟨rfl, rfl⟩⟩
  · unfold DynConsumer.receive_all
    rw [hb]
  · unfold DynConsumer.receive_all
    rw [hn]

/-- Witness for `dyn_receive_all_clamps`: a backend maximum of 3 clamps a
request for 5, and an absent maximum passes 5 through. -/
theorem dyn_receive_all_clamps_witness :
    (DynConsumer.receive_all erased1 5 7 = erased1.receive_all (min 5 3) 7) ∧
    (DynConsumer.receive_all erased2 5 7 = erased2.receive_all 5 7) :=
  ⟨(dyn_receive_all_clamps erased1 5 7).1 ⟨3, by decide⟩ rfl,
   (dyn_receive_all_clamps erased2 5 7).2.1 rfl⟩

/-- C2: on an overdue processing entry (lexically at or before the
validity limit) whose stored attempts counter `a` satisfies
`a + 1 < max_receives`, the reaper's loop body RPUSHes onto the tail of
the main list a rewritten frame carrying the same payload bytes, the
freshly generated id, and the attempts counter `a + 1` — one more than
stored — and then LREMs the original entry (count 1, exact value) from
the processing list. -/
theorem reaper_requeues_overdue_below_max
    (qk pk : String) (maxReceives : Nat) (limit freshId id ds b : Bytes) (a : Nat)
    (acc : ReapResult)
    (herr : acc.err = none)
    (hid : splitFirst frameSep id = none)
    (hds : parseDecimal ds = some a)
    (hlt : a + 1 < maxReceives)
    (hlex : leLex (id ++ frameSep :: (ds ++ frameSep :: b)) limit = true) :
    reapStep qk pk maxReceives limit { acc with ids := freshId :: acc.ids }
        (id ++ frameSep :: (ds ++ frameSep :: b)) =
      ⟨{ acc.st with
           main := acc.st.main ++ [internal_to_list_payload freshId (b, a + 1)],
           processing := lremOne acc.st.processing
             (id ++ frameSep :: (ds ++ frameSep :: b)) },
       acc.ids,
       acc.cmds ++
         [RedisCmd.rpush qk (internal_to_list_payload freshId (b, a + 1)),
          RedisCmd.lrem pk 1 (id ++ frameSep :: (ds ++ frameSep :: b))],
       none, acc.slept⟩ := by
  obtain ⟨ast, aids, acmds, aerr, aslept⟩ := acc
  obtain rfl : aerr = none := herr
  have hge : ¬ (a + 1 ≥ maxReceives) := by omega
  simp [reapStep, decode_frame_current hid hds, hlex, hge]

/-- Witness for `reaper_requeues_overdue_below_max`: the overdue frame
`1|4|h` with `max_receives = 9` is rewritten as `00|5|h` and removed from
processing. -/
theorem reaper_requeues_overdue_below_max_witness :
    reapStep qkey0 pkey0 9 [57] ⟨emptyState, [[48, 48]], [], none, false⟩
        ([49] ++ frameSep :: ([52] ++ frameSep :: [104])) =
      ⟨{ emptyState with
           main := emptyState.main ++ [internal_to_list_payload [48, 48] ([104], 4 + 1)],
           processing := lremOne emptyState.processing
             ([49] ++ frameSep :: ([52] ++ frameSep :: [104])) },
       [],
       [] ++
         [RedisCmd.rpush qkey0 (internal_to_list_payload [48, 48] ([104], 4 + 1)),
          RedisCmd.lrem pkey0 1 ([49] ++ frameSep :: ([52] ++ frameSep :: [104]))],
       none, false⟩ :=
  reaper_requeues_overdue_below_max qkey0 pkey0 9 [57] [48, 48] [49] [52] [104] 4
    ⟨emptyState, [], [], none, false⟩ rfl (by decide) (by decide) (by decide) (by decide)

/-- C1 evaluation: the reaper finds the overdue processing entry `0|4|hi`
(stored attempts 4, so receive count 5) with `max_receives = 5`, and the
iteration ends with every one of the four lists empty: the entry is LREMed
from processing with no preceding push of the decoded payload onto the
dead-letter list — indeed no command addresses any list but processing —
so the frame is silently dropped from all four keys, contradicting the
claimed DLQ escalation (which the repository's own
`test_deadletter_config` integration test also expects). -/
theorem reaper_silently_drops_exhausted_frame :
    reenqueue_timed_out_messages qkey0 pkey0 5 [57] [] c1State =
      ⟨⟨[], [], [], []⟩, [],
       [RedisCmd.lrange pkey0 0 1, RedisCmd.lrange pkey0 0 50,
        RedisCmd.lrem pkey0 1 c1Frame],
       none, false⟩ := by
  decide

theorem reapStep_err_some (qk pk : String) (maxReceives : Nat) (limit : Bytes)
    {acc : ReapResult} (h : acc.err.isSome = true) (key : Bytes) :
    reapStep qk pk maxReceives limit acc key = acc := by
  unfold reapStep
  rw [if_pos h]

theorem foldl_reapStep_err_absorb (qk pk : String) (maxReceives : Nat) (limit : Bytes)
    (l : List Bytes) {acc : ReapResult} (h : acc.err.isSome = true) :
    l.foldl (reapStep qk pk maxReceives limit) acc = acc := by
  induction l with
  | nil => rfl
  | cons x xs ih =>
    rw [List.foldl_cons, reapStep_err_some qk pk maxReceives limit h x]
    exact ih

theorem reapStep_good_head (qk pk : String) (maxReceives : Nat) (limit : Bytes)
    {acc : ReapResult} {x : Bytes} {tail : List Bytes}
    (herr : acc.err = none) (hproc : acc.st.processing = x :: tail)
    (hlex : leLex x limit = true) (hdec : decodeOk (internal_from_list x) = true) :
    (reapStep qk pk maxReceives limit acc x).err = none ∧
    (reapStep qk pk maxReceives limit acc x).st.processing = tail ∧
    (reapStep qk pk maxReceives limit acc x).st.dlq = acc.st.dlq ∧
    (reapStep qk pk maxReceives limit acc x).slept = acc.slept := by
  obtain ⟨v, hv⟩ : ∃ v, internal_from_list x = .ok v := by
    cases hx : internal_from_list x with
    | ok v => exact ⟨v, rfl⟩
    | error e => rw [hx] at hdec; simp [decodeOk] at hdec
  by_cases hm : v.2 ≥ maxReceives
  · simp [reapStep, herr, hlex, hv, hm, hproc, lremOne]
  · simp [reapStep, herr, hlex, hv, hm, hproc, lremOne]

theorem foldl_reapStep_good (qk pk : String) (maxReceives : Nat) (limit : Bytes) :
    ∀ (pre tail : List Bytes) (acc : ReapResult),
      acc.err = none → acc.st.processing = pre ++ tail →
      (∀ x ∈ pre, leLex x limit = true) →
      (∀ x ∈ pre, decodeOk (internal_from_list x) = true) →
      (pre.foldl (reapStep qk pk maxReceives limit) acc).err = none ∧
      (pre.foldl (reapStep qk pk maxReceives limit) acc).st.processing = tail ∧
      (pre.foldl (reapStep qk pk maxReceives limit) acc).st.dlq = acc.st.dlq ∧
      (pre.foldl (reapStep qk pk maxReceives limit) acc).slept = acc.slept := by
  intro pre
  induction pre with
  | nil => intro tail acc herr hproc _ _; exact ⟨herr, hproc, rfl, rfl⟩
  | cons x xs ih =>
    intro tail acc herr hproc hlex hdec
    have hstep := reapStep_good_head qk pk maxReceives limit herr
      (show acc.st.processing = x :: (xs ++ tail) by rw [hproc]; rfl)
      (hlex x (List.mem_cons_self x xs)) (hdec x (List.mem_cons_self x xs))
    rw [List.foldl_cons]
    have hrest := ih tail (reapStep qk pk maxReceives limit acc x) hstep.1 hstep.2.1
      (fun y hy => hlex y (List.mem_cons_of_mem x hy))
      (fun y hy => hdec y (List.mem_cons_of_mem x hy))
    exact ⟨hrest.1, hrest.2.1, hrest.2.2.1.trans hstep.2.2.1,
      hrest.2.2.2.trans hstep.2.2.2⟩

theorem reenqueue_gate_open (qk pk : String) (maxReceives : Nat) (limit : Bytes)
    (ids : List Bytes) (st : RedisState) (hne : st.processing ≠ [])
    (hk0 : leLex (st.processing.headD []) limit = true) :
    reenqueue_timed_out_messages qk pk maxReceives limit ids st =
      (st.processing.take 51).foldl (reapStep qk pk maxReceives limit)
        ⟨st, ids, [RedisCmd.lrange pk 0 1, RedisCmd.lrange pk 0 50], none, false⟩ := by
  unfold reenqueue_timed_out_messages
  cases hp : st.processing with
  | nil => exact absurd hp hne
  | cons k0 tl =>
    rw [hp] at hk0
    simp only [hp, List.take_succ_cons, List.headD_cons] at hk0 ⊢
    rw [if_pos hk0]

theorem reenqueue_stuck_at_head (qk pk : String) (maxReceives : Nat)
    (limit : Bytes) (ids : List Bytes) {bad : Bytes} {post : List Bytes}
    {e : QueueError} (st : RedisState)
    (hproc : st.processing = bad :: post)
    (hdec : internal_from_list bad = .error e)
    (hlex : leLex bad limit = true) :
    reenqueue_timed_out_messages qk pk maxReceives limit ids st =
      ⟨st, ids, [RedisCmd.lrange pk 0 1, RedisCmd.lrange pk 0 50], some e, false⟩ := by
  have hgate := reenqueue_gate_open qk pk maxReceives limit ids st
    (by rw [hproc]; exact List.cons_ne_nil bad post)
    (by rw [hproc]; exact hlex)
  rw [hgate, hproc, List.take_succ_cons, List.foldl_cons]
  have hstep :
      reapStep qk pk maxReceives limit
        ⟨st, ids, [RedisCmd.lrange pk 0 1, RedisCmd.lrange pk 0 50], none, false⟩ bad =
        ⟨st, ids, [RedisCmd.lrange pk 0 1, RedisCmd.lrange pk 0 50], some e, false⟩ := by
    simp [reapStep, hlex, hdec]
  rw [hstep]
  exact foldl_reapStep_err_absorb qk pk maxReceives limit _ rfl

theorem reapStep_decode_error (qk pk : String) (maxReceives : Nat) (limit : Bytes)
    {acc : ReapResult} {key : Bytes} {e : QueueError}
    (herr : acc.err = none) (hlex : leLex key limit = true)
    (hdec : internal_from_list key = .error e) :
    reapStep qk pk maxReceives limit acc key = { acc with err := some e } := by
  obtain ⟨ast, aids, acmds, aerr, aslept⟩ := acc
  obtain rfl : aerr = none := herr
  simp [reapStep, hlex, hdec]

/-- C8: if a batch entry of the reaper fails to decode, the iteration of
`reenqueue_timed_out_messages` returns that error before LREMing or
re-enqueuing that entry or any entry after it, so the undecodable entry
stays in the processing list (entries before it in the batch, being
overdue and decodable, were already reclaimed); the background loop
swallows the error, sleeps 500 ms and retries with the store it got; and
any retry in which the entry is again at the head and overdue returns the
same error with the store completely unchanged, so reclamation of the
entries at or behind it never makes progress. -/
theorem reaper_stuck_on_undecodable_entry
    (qk pk : String) (maxReceives : Nat) (limit : Bytes) (ids : List Bytes)
    (pre post : List Bytes) (bad : Bytes) (e : QueueError) (st : RedisState)
    (hproc : st.processing = pre ++ bad :: post)
    (hlen : pre.length ≤ 50)
    (hpreLex : ∀ x ∈ pre, leLex x limit = true)
    (hpreOk : ∀ x ∈ pre, decodeOk (internal_from_list x) = true)
    (hdec : internal_from_list bad = .error e)
    (hlex : leLex bad limit = true) :
    (reenqueue_timed_out_messages qk pk maxReceives limit ids st).err = some e ∧
    (reenqueue_timed_out_messages qk pk maxReceives limit ids st).st.processing =
      bad :: post ∧
    (reenqueue_timed_out_messages qk pk maxReceives limit ids st).st.dlq = st.dlq ∧
    background_task_iteration qk pk maxReceives limit ids st =
      ((reenqueue_timed_out_messages qk pk maxReceives limit ids st).st,
       (reenqueue_timed_out_messages qk pk maxReceives limit ids st).ids, true) ∧
    (∀ (limit2 : Bytes) (ids2 : List Bytes) (st2 : RedisState),
      st2.processing = bad :: post → leLex bad limit2 = true →
      reenqueue_timed_out_messages qk pk maxReceives limit2 ids2 st2 =
        ⟨st2, ids2, [RedisCmd.lrange pk 0 1, RedisCmd.lrange pk 0 50],
         some e, false⟩) := by
  have hne : st.processing ≠ [] := by
    rw [hproc]; cases pre <;> simp
  have hk0 : leLex (st.processing.headD []) limit = true := by
    rw [hproc]
    cases pre with
    | nil => simpa using hlex
    | cons p ps => simpa using hpreLex p (List.mem_cons_self p ps)
  have hbatch : st.processing.take 51 = pre ++ bad :: post.take (50 - pre.length) := by
    rw [hproc, List.take_append_eq_append_take,
      List.take_of_length_le (show pre.length ≤ 51 by omega)]
    congr 1
    have h51 : 51 - pre.length = (50 - pre.length) + 1 := by omega
    rw [h51, List.take_succ_cons]
  have hgate := reenqueue_gate_open qk pk maxReceives limit ids st hne hk0
  rw [hbatch, List.foldl_append] at hgate
  have hpre := foldl_reapStep_good qk pk maxReceives limit pre (bad :: post)
    ⟨st, ids, [RedisCmd.lrange pk 0 1, RedisCmd.lrange pk 0 50], none, false⟩
    rfl hproc hpreLex hpreOk
  obtain ⟨herr', hproc', hdlq', hslept'⟩ := hpre
  rw [List.foldl_cons, reapStep_decode_error qk pk maxReceives limit herr' hlex hdec,
    foldl_reapStep_err_absorb qk pk maxReceives limit _ (by rfl)] at hgate
  refine ⟨?_, ?_, ?_, ?_, ?_⟩
  · rw [hgate]
  · rw [hgate]; exact hproc'
  · rw [hgate]; exact hdlq'
  · unfold background_task_iteration
    rw [hgate]
  · intro limit2 ids2 st2 h2 hl2
    exact reenqueue_stuck_at_head qk pk maxReceives limit2 ids2 st2 h2 hdec hl2

/-- Witness for `reaper_stuck_on_undecodable_entry`: the overdue frame
`0|1|a` followed by the undecodable entry `00` in processing; the
iteration reclaims the first, errors on the second and leaves it in
processing, and the background turn sleeps and keeps the store. -/
theorem reaper_stuck_on_undecodable_entry_witness :
    (reenqueue_timed_out_messages qkey0 pkey0 5 [57] []
        ⟨[], [[48, 124, 49, 124, 97], [48, 48]], [], []⟩).err =
      some QueueError.MalformedFrame ∧
    (reenqueue_timed_out_messages qkey0 pkey0 5 [57] []
        ⟨[], [[48, 124, 49, 124, 97], [48, 48]], [], []⟩).st.processing = [[48, 48]] ∧
    background_task_iteration qkey0 pkey0 5 [57] []
        ⟨[], [[48, 124, 49, 124, 97], [48, 48]], [], []⟩ =
      ((reenqueue_timed_out_messages qkey0 pkey0 5 [57] []
          ⟨[], [[48, 124, 49, 124, 97], [48, 48]], [], []⟩).st,
       (reenqueue_timed_out_messages qkey0 pkey0 5 [57] []
          ⟨[], [[48, 124, 49, 124, 97], [48, 48]], [], []⟩).ids, true) :=
  have h := reaper_stuck_on_undecodable_entry qkey0 pkey0 5 [57] []
    [[48, 124, 49, 124, 97]] [] [48, 48] QueueError.MalformedFrame
    ⟨[], [[48, 124, 49, 124, 97], [48, 48]], [], []⟩
    rfl (by decide) (by decide) (by decide) (by decide) (by decide)
  ⟨h.1, h.2.1, h.2.2.2.1⟩

/-- C7: decoding a stored frame.  A legacy frame with a single separator
`id|bytes` parses successfully with stored attempts 0 (so the decoded
receive count is 1); a frame with two or more separators whose middle
field is a decimal number parses to that non-negative attempts value (the
receive count is one more); an input with no separator at all, or one
whose middle field is not a decimal number, fails with the
`MalformedFrame` error. -/
theorem decode_legacy_current_and_malformed
    (id b ds mid tail : Bytes) (a : Nat)
    (hid : splitFirst frameSep id = none)
    (hb : splitFirst frameSep b = none)
    (hds : parseDecimal ds = some a)
    (hmid : splitFirst frameSep mid = none)
    (hmidBad : parseDecimal mid = none) :
    parse_list_payload (id ++ frameSep :: b) = .ok (b, 0) ∧
    internal_from_list (id ++ frameSep :: b) = .ok (b, 0 + 1) ∧
    parse_list_payload (id ++ frameSep :: (ds ++ frameSep :: tail)) = .ok (tail, a) ∧
    internal_from_list (id ++ frameSep :: (ds ++ frameSep :: tail)) = .ok (tail, a + 1) ∧
    parse_list_payload id = .error QueueError.MalformedFrame ∧
    internal_from_list id = .error QueueError.MalformedFrame ∧
    parse_list_payload (id ++ frameSep :: (mid ++ frameSep :: tail)) =
      .error QueueError.MalformedFrame ∧
    internal_from_list (id ++ frameSep :: (mid ++ frameSep :: tail)) =
      .error QueueError.MalformedFrame := by
  have hlegacy := parse_frame_legacy hid hb
  have hcur := @parse_frame_current id ds tail a hid hds
  have hnosep : parse_list_payload id = .error QueueError.MalformedFrame := by
    unfold parse_list_payload
    rw [hid]
  have hbadmid : parse_list_payload (id ++ frameSep :: (mid ++ frameSep :: tail)) =
      .error QueueError.MalformedFrame := by
    simp only [parse_list_payload, splitFirst_append_of_none _ hid,
      splitFirst_append_of_none tail hmid, hmidBad]
  refine ⟨hlegacy, ?_, hcur, ?_, hnosep, ?_, hbadmid, ?_⟩
  · unfold internal_from_list
    rw [hlegacy]
  · unfold internal_from_list
    rw [hcur]
  · unfold internal_from_list
    rw [hnosep]
  · unfold internal_from_list
    rw [hbadmid]

/-- Witness for `decode_legacy_current_and_malformed`: id `k`, legacy
payload `h`, attempts field `4`, non-numeric middle field `x`, and a tail
that itself contains a separator. -/
theorem decode_legacy_current_and_malformed_witness :
    parse_list_payload ([107] ++ frameSep :: [104]) = .ok ([104], 0) ∧
    internal_from_list ([107] ++ frameSep :: [104]) = .ok ([104], 0 + 1) ∧
    parse_list_payload ([107] ++ frameSep :: ([52] ++ frameSep :: [9, 124, 10])) =
      .ok ([9, 124, 10], 4) ∧
    internal_from_list ([107] ++ frameSep :: ([52] ++ frameSep :: [9, 124, 10])) =
      .ok ([9, 124, 10], 4 + 1) ∧
    parse_list_payload [107] = .error QueueError.MalformedFrame ∧
    internal_from_list [107] = .error QueueError.MalformedFrame ∧
    parse_list_payload ([107] ++ frameSep :: ([120] ++ frameSep :: [9, 124, 10])) =
      .error QueueError.MalformedFrame ∧
    internal_from_list ([107] ++ frameSep :: ([120] ++ frameSep :: [9, 124, 10])) =
      .error QueueError.MalformedFrame :=
  decode_legacy_current_and_malformed [107] [104] [52] [120] [9, 124, 10] 4
    (by decide) (by decide) (by decide) (by decide) (by decide)
